import Mathlib

/-!
Verification of the controller-playground repository: a level-triggered
reconciliation control loop in two variants (client-go and controller-runtime).
The reconcile bodies, the worker loop and the event filter are translated from
`src/client-go-project/controller/controller.go` and
`src/controller-runtime-project/controller/controller.go`.  The key model and
the rate limiter live in third-party library code not present in the
repository; they are modelled from the spec, as marked on each definition.
-/

namespace ControllerPlayground

/-! ### Key model -/

/-- Split a character list at every slash.  Helper for the key model. -/
def splitSlash : List Char → List (List Char)
  | [] => [[]]
  | c :: rest =>
    if c = '/' then [] :: splitSlash rest
    else
      match splitSlash rest with
      | [] => [[c]]
      | p :: ps => (c :: p) :: ps

/-- Modelled from the spec: `cache.MetaNamespaceKeyFunc` (library code not in
the repository) — the canonical string encoding `"namespace/name"` of a key. -/
def metaNamespaceKeyFunc (ns name : String) : String :=
  ns ++ "/" ++ name

/-- Modelled from the spec: `cache.SplitMetaNamespaceKey` (library code not in
the repository) — split the canonical `"namespace/name"` encoding back into
namespace and name, rejecting malformed encodings with an error. -/
def splitMetaNamespaceKey (key : String) : Except Unit (String × String) :=
  match splitSlash key.toList with
  | [a, b] => .ok (String.mk a, String.mk b)
  | _ => .error ()

/-! ### Deployment objects and the resource accessor -/

/-- A deployment as the reconcile functions see it: the replica count
(`Spec.Replicas`, a nullable field in the source, hence `Option`) and the rest
of the object carried opaquely (metadata, pod template, ...), which the
reconcile functions read and copy but never modify. -/
structure Deployment where
  meta : String
  replicas : Option Int
deriving DecidableEq, Repr

/-- `DeepCopy` from the source: builds a fresh object with the same fields. -/
def Deployment.deepCopy (d : Deployment) : Deployment :=
  { meta := d.meta, replicas := d.replicas }

/-- Errors a fetch can report (`errors.IsNotFound` distinguishes the two). -/
inductive GetErr
  | notFound
  | other
deriving DecidableEq, Repr

/-- The resource accessor: fetch and update a single object by namespace and
name.  The update result only matters through nil-ness of the error. -/
structure Accessor where
  get : String → String → Except GetErr Deployment
  update : String → String → Deployment → Except Unit Unit

/-- The error value a reconcile pass returns (the worker only tests nil-ness;
the constructors record which statement produced the error). -/
inductive PErr
  | badKey
  | fetchFailed (e : GetErr)
  | updateFailed
deriving DecidableEq, Repr

/-- Observable effects of one reconcile pass: the returned error (`none` for success),
the list of update calls issued through the accessor in order, and the value
of the fetched object when the pass ends (`none` when no fetch succeeded) —
recording whether the pass mutated the fetched object in place. -/
structure ReconcileEffects where
  err : Option PErr
  updates : List Deployment
  fetchedAfter : Option Deployment
deriving DecidableEq, Repr

/-! ### client-go: `processItem` (src/client-go-project/controller/controller.go) -/

/-- `Controller.processItem`: split the key, fetch the deployment, treat
not-found as success, and if the replica count (nil counting as 0) is below 2,
update a deep copy with replicas set to 2. -/
def processItem (acc : Accessor) (key : String) : ReconcileEffects :=
  match splitMetaNamespaceKey key with
  | .error _ => { err := some .badKey, updates := [], fetchedAfter := none }
  | .ok (ns, name) =>
    match acc.get ns name with
    | .error .notFound => { err := none, updates := [], fetchedAfter := none }
    | .error e => { err := some (.fetchFailed e), updates := [], fetchedAfter := none }
    | .ok deployment =>
      let replicas : Int :=
        match deployment.replicas with
        | none => 0
        | some r => r
      if replicas < 2 then
        let updatedDeployment := { deployment.deepCopy with replicas := some 2 }
        match acc.update ns name updatedDeployment with
        | .error _ =>
          { err := some .updateFailed, updates := [updatedDeployment],
            fetchedAfter := some deployment }
        | .ok _ =>
          { err := none, updates := [updatedDeployment],
            fetchedAfter := some deployment }
      else
        { err := none, updates := [], fetchedAfter := some deployment }

/-! ### client-go: worker loop `processNextItem` -/

/-- Bookkeeping calls the worker makes on the queue, in program order. -/
inductive QueueOp
  | doneOp (k : String)
  | addRateLimitedOp (k : String)
  | forgetOp (k : String)
deriving DecidableEq, Repr

/-- `Controller.processNextItem`: `Get` yields either shutdown (`none`) or a
key.  `defer c.queue.Done(key)` runs when the function returns, so the `Done`
call is recorded after the `AddRateLimited` or `Forget` issued in the body.
Returns the continue/stop boolean and the queue-operation trace. -/
def processNextItem (acc : Accessor) (getResult : Option String) :
    Bool × List QueueOp :=
  match getResult with
  | none => (false, [])
  | some key =>
    match (processItem acc key).err with
    | some _ => (true, [.addRateLimitedOp key, .doneOp key])
    | none => (true, [.forgetOp key, .doneOp key])

/-! ### controller-runtime: `Reconcile` (src/controller-runtime-project/controller/controller.go) -/

/-- The request identity `req.NamespacedName`. -/
structure NamespacedName where
  ns : String
  name : String
deriving DecidableEq, Repr

/-- `DeploymentReconciler.Reconcile`: fetch by request identity, return success
on not-found (no requeue), propagate other fetch errors, and if the replica
count (nil counting as 0) is below 2, update a deep copy with replicas set
to 2. -/
def Reconcile (acc : Accessor) (req : NamespacedName) : ReconcileEffects :=
  match acc.get req.ns req.name with
  | .error .notFound => { err := none, updates := [], fetchedAfter := none }
  | .error e => { err := some (.fetchFailed e), updates := [], fetchedAfter := none }
  | .ok deployment =>
    let replicas : Int :=
      match deployment.replicas with
      | none => 0
      | some r => r
    if replicas < 2 then
      let updatedDeployment := { deployment.deepCopy with replicas := some 2 }
      match acc.update req.ns req.name updatedDeployment with
      | .error _ =>
        { err := some .updateFailed, updates := [updatedDeployment],
          fetchedAfter := some deployment }
      | .ok _ =>
        { err := none, updates := [updatedDeployment],
          fetchedAfter := some deployment }
    else
      { err := none, updates := [], fetchedAfter := some deployment }

/-! ### Rate limiter -/

/-- Modelled from the spec: the per-key failure counters of the workqueue rate
limiter (`workqueue.DefaultTypedControllerRateLimiter`, library code not in
the repository). -/
structure RLState where
  failures : String → Nat

/-- Modelled from the spec: `AddRateLimited` reads the key's failure counter,
schedules a delay of `base × 2^failures` capped at `maxDelay`, and increments
the counter. -/
def addRateLimitedDelay (base maxDelay : Nat) (st : RLState) (k : String) :
    Nat × RLState :=
  (min (base * 2 ^ st.failures k) maxDelay,
   ⟨fun k2 => if k2 = k then st.failures k + 1 else st.failures k2⟩)

/-- Modelled from the spec: `Forget` resets the key's failure counter. -/
def rlForget (st : RLState) (k : String) : RLState :=
  ⟨fun k2 => if k2 = k then 0 else st.failures k2⟩

/-! ### Namespace confinement -/

/-- An object as seen by event handlers: its namespace and name. -/
structure EventObj where
  ns : String
  name : String
deriving DecidableEq, Repr

/-- `SetupWithManager`'s `predicate.Funcs` CreateFunc: admit an event iff the
object's namespace is `"test"`. -/
def createFunc (e : EventObj) : Bool :=
  e.ns == "test"

/-- `SetupWithManager`'s `predicate.Funcs` UpdateFunc: admit an event iff the
new object's namespace is `"test"`. -/
def updateFunc (_old newObj : EventObj) : Bool :=
  newObj.ns == "test"

/-- `SetupWithManager`'s `predicate.Funcs` DeleteFunc: admit an event iff the
object's namespace is `"test"`. -/
def deleteFunc (e : EventObj) : Bool :=
  e.ns == "test"

/-- Modelled from the spec: `informers.WithNamespace("test")` (library code not
in the repository) restricts the watch source so the informer delivers only
objects whose namespace is `"test"` to the registered handlers. -/
def informerDelivers (obj : EventObj) : Prop :=
  obj.ns = "test"

/-- The key that `Run`'s event handlers enqueue for a delivered object
(each handler calls `cache.MetaNamespaceKeyFunc` and then `queue.Add`). -/
def handlerKey (obj : EventObj) : String :=
  metaNamespaceKeyFunc obj.ns obj.name

/-! ### Concrete accessors used to instantiate the theorems -/

/-- An accessor whose fetch finds a deployment with 0 replicas and whose
update succeeds. -/
def accLow : Accessor :=
  { get := fun _ _ => .ok { meta := "m", replicas := some 0 },
    update := fun _ _ _ => .ok () }

/-- An accessor whose fetch finds a deployment already at 2 replicas. -/
def accHigh : Accessor :=
  { get := fun _ _ => .ok { meta := "m", replicas := some 2 },
    update := fun _ _ _ => .ok () }

/-- An accessor whose fetch reports not-found. -/
def accNotFound : Accessor :=
  { get := fun _ _ => .error .notFound,
    update := fun _ _ _ => .ok () }

/-- An accessor whose fetch fails with a non-not-found error. -/
def accGetFails : Accessor :=
  { get := fun _ _ => .error .other,
    update := fun _ _ _ => .ok () }

/-! ### Key-model lemmas -/

theorem splitSlash_ne_nil (l : List Char) : splitSlash l ≠ [] := by
  cases l with
  | nil => simp [splitSlash]
  | cons c rest =>
    simp only [splitSlash]
    split
    · simp
    · split <;> simp

theorem splitSlash_no_slash (l : List Char) (h : '/' ∉ l) : splitSlash l = [l] := by
  induction l with
  | nil => rfl
  | cons c rest ih =>
    have hc : c ≠ '/' := fun hc => h (hc ▸ List.mem_cons_self c rest)
    have hrest : '/' ∉ rest := fun hr => h (List.mem_cons_of_mem c hr)
    simp only [splitSlash, if_neg hc, ih hrest]

theorem splitSlash_append (a b : List Char) (ha : '/' ∉ a) :
    splitSlash (a ++ '/' :: b) = a :: splitSlash b := by
  induction a with
  | nil => simp [splitSlash]
  | cons c rest ih =>
    have hc : c ≠ '/' := fun hc => ha (hc ▸ List.mem_cons_self c rest)
    have hrest : '/' ∉ rest := fun hr => ha (List.mem_cons_of_mem c hr)
    simp only [List.cons_append, splitSlash, if_neg hc, List.append_eq, ih hrest]

theorem splitSlash_length (l : List Char) :
    (splitSlash l).length = l.count '/' + 1 := by
  induction l with
  | nil => rfl
  | cons c rest ih =>
    simp only [splitSlash]
    by_cases hc : c = '/'
    · subst hc
      simp [List.count_cons, ih]
    · rw [if_neg hc]
      cases hs : splitSlash rest with
      | nil => exact absurd hs (splitSlash_ne_nil rest)
      | cons p ps =>
        simp only [List.length_cons]
        rw [hs] at ih
        simp only [List.length_cons] at ih
        simp [List.count_cons, hc, ih]

theorem split_join (ns n : String) (h1 : '/' ∉ ns.toList) (h2 : '/' ∉ n.toList) :
    splitMetaNamespaceKey (metaNamespaceKeyFunc ns n) = .ok (ns, n) := by
  have hdata : (metaNamespaceKeyFunc ns n).toList = ns.toList ++ '/' :: n.toList := by
    simp [metaNamespaceKeyFunc, String.toList, String.data_append]
  simp only [splitMetaNamespaceKey, hdata, splitSlash_append ns.toList n.toList h1,
    splitSlash_no_slash n.toList h2]
  rfl

theorem split_malformed (key : String) (h : key.toList.count '/' ≠ 1) :
    splitMetaNamespaceKey key = .error () := by
  have hl := splitSlash_length key.toList
  unfold splitMetaNamespaceKey
  cases hs : splitSlash key.toList with
  | nil => rfl
  | cons p ps =>
    cases ps with
    | nil => rfl
    | cons q qs =>
      cases qs with
      | nil =>
        rw [hs] at hl
        simp only [List.length_cons, List.length_nil] at hl
        omega
      | cons r rs => rfl

/-! ### C7: key round-trip -/

/-- C7 (counterexample): the round trip does not hold for every namespace and
name — with namespace `"a/b"` and name `"c"`, splitting the joined encoding
is rejected instead of recovering `("a/b", "c")`. -/
theorem c7_roundtrip_counterexample :
    splitMetaNamespaceKey (metaNamespaceKeyFunc "a/b" "c") ≠ Except.ok ("a/b", "c") := by
  intro h
  exact absurd h (by simp [splitMetaNamespaceKey, metaNamespaceKeyFunc, splitSlash])

/-- C7 (amended): for every namespace and name that contain no slash,
splitting the canonical `"namespace/name"` encoding produced by the key-join
function recovers exactly the original namespace and name, and splitting an
encoding whose slash count differs from one is rejected with an error. -/
theorem c7_key_roundtrip :
    (∀ ns n : String, '/' ∉ ns.toList → '/' ∉ n.toList →
      splitMetaNamespaceKey (metaNamespaceKeyFunc ns n) = .ok (ns, n)) ∧
    (∀ key : String, key.toList.count '/' ≠ 1 →
      splitMetaNamespaceKey key = .error ()) :=
  ⟨split_join, split_malformed⟩

/-- C7 (witness): the round trip at namespace `"test"`, name `"app"`, and the
rejection of the slash-free string `"abc"`. -/
theorem c7_key_roundtrip_witness :
    splitMetaNamespaceKey (metaNamespaceKeyFunc "test" "app") = .ok ("test", "app") ∧
    splitMetaNamespaceKey "abc" = .error () :=
  ⟨c7_key_roundtrip.1 "test" "app" (by decide) (by decide),
   c7_key_roundtrip.2 "abc" (by decide)⟩

/-! ### Reconcile-body lemmas -/

theorem replicas_match_eq_getD (d : Deployment) :
    (match d.replicas with | none => (0 : Int) | some r => r) = d.replicas.getD 0 := by
  cases d.replicas <;> rfl

theorem processItem_fetched (acc : Accessor) (key ns name : String) (d : Deployment)
    (hsplit : splitMetaNamespaceKey key = .ok (ns, name))
    (hget : acc.get ns name = .ok d) :
    processItem acc key =
      if d.replicas.getD 0 < 2 then
        match acc.update ns name { d.deepCopy with replicas := some 2 } with
        | .error _ =>
          { err := some .updateFailed, updates := [{ d.deepCopy with replicas := some 2 }],
            fetchedAfter := some d }
        | .ok _ =>
          { err := none, updates := [{ d.deepCopy with replicas := some 2 }],
            fetchedAfter := some d }
      else { err := none, updates := [], fetchedAfter := some d } := by
  simp only [processItem, hsplit, hget, replicas_match_eq_getD]

theorem Reconcile_fetched (acc : Accessor) (ns name : String) (d : Deployment)
    (hget : acc.get ns name = .ok d) :
    Reconcile acc ⟨ns, name⟩ =
      if d.replicas.getD 0 < 2 then
        match acc.update ns name { d.deepCopy with replicas := some 2 } with
        | .error _ =>
          { err := some .updateFailed, updates := [{ d.deepCopy with replicas := some 2 }],
            fetchedAfter := some d }
        | .ok _ =>
          { err := none, updates := [{ d.deepCopy with replicas := some 2 }],
            fetchedAfter := some d }
      else { err := none, updates := [], fetchedAfter := some d } := by
  simp only [Reconcile, hget, replicas_match_eq_getD]

/-! ### C1: convergence -/

/-- C1: for every deployment successfully fetched whose replica count is below
2 (a nil replicas field counting as 0), one reconcile pass — in either
implementation — issues exactly one update through the resource accessor, and
that update sets the replica count to exactly 2. -/
theorem c1_convergence (acc : Accessor) (key ns name : String) (d : Deployment)
    (hsplit : splitMetaNamespaceKey key = .ok (ns, name))
    (hget : acc.get ns name = .ok d)
    (hlt : d.replicas.getD 0 < 2) :
    (processItem acc key).updates = [{ d.deepCopy with replicas := some 2 }] ∧
    (Reconcile acc ⟨ns, name⟩).updates = [{ d.deepCopy with replicas := some 2 }] := by
  rw [processItem_fetched acc key ns name d hsplit hget,
    Reconcile_fetched acc ns name d hget, if_pos hlt]
  cases acc.update ns name { d.deepCopy with replicas := some 2 } <;> exact ⟨rfl, rfl⟩

/-- C1 (witness): with an accessor that finds a deployment with 0 replicas,
the single update sets replicas to 2. -/
theorem c1_convergence_witness :
    splitMetaNamespaceKey "test/app" = .ok ("test", "app") ∧
    accLow.get "test" "app" = .ok { meta := "m", replicas := some 0 } ∧
    (({ meta := "m", replicas := some 0 } : Deployment).replicas.getD 0 < 2) ∧
    (processItem accLow "test/app").updates = [{ meta := "m", replicas := some 2 }] :=
  ⟨rfl, rfl, by decide,
   (c1_convergence accLow "test/app" "test" "app" { meta := "m", replicas := some 0 }
     rfl rfl (by decide)).1⟩

/-! ### C2: idempotence -/

/-- C2: for every fetched deployment whose replica count is already at least 2,
both implementations of the reconcile function return success and issue no
update call; since the pass performs no write, a second invocation in
succession meets the same state and likewise performs zero writes. -/
theorem c2_idempotence (acc : Accessor) (key ns name : String) (d : Deployment)
    (hsplit : splitMetaNamespaceKey key = .ok (ns, name))
    (hget : acc.get ns name = .ok d)
    (hge : 2 ≤ d.replicas.getD 0) :
    (processItem acc key).err = none ∧ (processItem acc key).updates = [] ∧
    (Reconcile acc ⟨ns, name⟩).err = none ∧ (Reconcile acc ⟨ns, name⟩).updates = [] := by
  rw [processItem_fetched acc key ns name d hsplit hget,
    Reconcile_fetched acc ns name d hget, if_neg (by omega)]
  exact ⟨rfl, rfl, rfl, rfl⟩

/-- C2 (witness): with an accessor that finds a deployment already at 2
replicas, reconcile succeeds with no update. -/
theorem c2_idempotence_witness :
    splitMetaNamespaceKey "test/app" = .ok ("test", "app") ∧
    accHigh.get "test" "app" = .ok { meta := "m", replicas := some 2 } ∧
    (2 ≤ ({ meta := "m", replicas := some 2 } : Deployment).replicas.getD 0) ∧
    (processItem accHigh "test/app").err = none ∧
    (processItem accHigh "test/app").updates = [] :=
  ⟨rfl, rfl, by decide,
   (c2_idempotence accHigh "test/app" "test" "app" { meta := "m", replicas := some 2 }
     rfl rfl (by decide)).1,
   (c2_idempotence accHigh "test/app" "test" "app" { meta := "m", replicas := some 2 }
     rfl rfl (by decide)).2.1⟩

/-! ### C5: not-found handling -/

/-- C5: for every key whose fetch reports not-found, both implementations
return success without issuing any update call, and the worker routes the key
to `Forget` (not `AddRateLimited`). -/
theorem c5_not_found (acc : Accessor) (key ns name : String)
    (hsplit : splitMetaNamespaceKey key = .ok (ns, name))
    (hget : acc.get ns name = .error .notFound) :
    (processItem acc key).err = none ∧ (processItem acc key).updates = [] ∧
    processNextItem acc (some key) = (true, [.forgetOp key, .doneOp key]) ∧
    (Reconcile acc ⟨ns, name⟩).err = none ∧ (Reconcile acc ⟨ns, name⟩).updates = [] := by
  have hp : processItem acc key = { err := none, updates := [], fetchedAfter := none } := by
    simp only [processItem, hsplit, hget]
  refine ⟨by rw [hp], by rw [hp], ?_, ?_, ?_⟩
  · simp only [processNextItem, hp]
  · simp only [Reconcile, hget]
  · simp only [Reconcile, hget]

/-- C5 (witness): with an accessor reporting not-found, reconcile succeeds and
the worker calls `Forget` then (deferred) `Done`. -/
theorem c5_not_found_witness :
    splitMetaNamespaceKey "test/app" = .ok ("test", "app") ∧
    accNotFound.get "test" "app" = .error .notFound ∧
    (processItem accNotFound "test/app").updates = [] ∧
    processNextItem accNotFound (some "test/app") =
      (true, [.forgetOp "test/app", .doneOp "test/app"]) :=
  ⟨rfl, rfl,
   (c5_not_found accNotFound "test/app" "test" "app" rfl rfl).2.1,
   (c5_not_found accNotFound "test/app" "test" "app" rfl rfl).2.2.1⟩

/-! ### C8: update acts on a deep copy, fetched object unchanged -/

/-- C8: whenever a pass fetches a deployment, every update it issues carries a
deep copy of the fetched object with only the replicas field changed to 2, and
the fetched object itself (hence the mirrored copy it was decoded from) still
holds its original replica count when the pass ends, in both
implementations. -/
theorem c8_deep_copy (acc : Accessor) (key ns name : String) (d : Deployment)
    (hsplit : splitMetaNamespaceKey key = .ok (ns, name))
    (hget : acc.get ns name = .ok d) :
    (processItem acc key).fetchedAfter = some d ∧
    (∀ u ∈ (processItem acc key).updates, u = { d.deepCopy with replicas := some 2 }) ∧
    (Reconcile acc ⟨ns, name⟩).fetchedAfter = some d ∧
    (∀ u ∈ (Reconcile acc ⟨ns, name⟩).updates, u = { d.deepCopy with replicas := some 2 }) := by
  rw [processItem_fetched acc key ns name d hsplit hget,
    Reconcile_fetched acc ns name d hget]
  by_cases hlt : d.replicas.getD 0 < 2
  · rw [if_pos hlt]
    cases acc.update ns name { d.deepCopy with replicas := some 2 } <;>
      exact ⟨rfl, by simp, rfl, by simp⟩
  · rw [if_neg hlt]
    exact ⟨rfl, by simp, rfl, by simp⟩

/-- C8 (witness): with a fetched deployment at 0 replicas, the pass ends with
the fetched object still at 0 replicas while the issued update carries 2. -/
theorem c8_deep_copy_witness :
    splitMetaNamespaceKey "test/app" = .ok ("test", "app") ∧
    accLow.get "test" "app" = .ok { meta := "m", replicas := some 0 } ∧
    (processItem accLow "test/app").fetchedAfter = some { meta := "m", replicas := some 0 } :=
  ⟨rfl, rfl,
   (c8_deep_copy accLow "test/app" "test" "app" { meta := "m", replicas := some 0 }
     rfl rfl).1⟩

/-! ### C10: the two implementations agree -/

/-- C10: for every key the client-go worker can parse, the client-go
`processItem` and the controller-runtime `Reconcile` run against the same
accessor produce identical effects — same success or failure, same update
calls, same final fetched object. -/
theorem c10_implementations_agree (acc : Accessor) (key ns name : String)
    (hsplit : splitMetaNamespaceKey key = .ok (ns, name)) :
    processItem acc key = Reconcile acc ⟨ns, name⟩ := by
  simp only [processItem, Reconcile, hsplit]

/-- C10 (witness): the two implementations coincide on key `"test/app"` with
an accessor that finds a deployment with 0 replicas. -/
theorem c10_implementations_agree_witness :
    splitMetaNamespaceKey "test/app" = .ok ("test", "app") ∧
    processItem accLow "test/app" = Reconcile accLow ⟨"test", "app"⟩ :=
  ⟨rfl, c10_implementations_agree accLow "test/app" "test" "app" rfl⟩

/-! ### C3: Done bookkeeping in the worker loop -/

/-- C3 (counterexample): `Done` is not invoked before the reconcile result is
routed — with a failing fetch, the trace records `AddRateLimited` at an
earlier position than the deferred `Done`. -/
theorem c3_done_counterexample :
    ¬ ((processNextItem accGetFails (some "test/app")).2.indexOf
        (QueueOp.doneOp "test/app") <
      (processNextItem accGetFails (some "test/app")).2.indexOf
        (QueueOp.addRateLimitedOp "test/app")) := by
  decide

/-- C3 (amended): for every `Get` that returns a key, the worker invokes
`Done(key)` exactly once on every exit path (reconcile success and failure) —
but, being deferred to function return, `Done` runs after the result has been
routed into `Forget` or `AddRateLimited`, not before. -/
theorem c3_done_exactly_once (acc : Accessor) (key : String) :
    ((processNextItem acc (some key)).2 =
        [.addRateLimitedOp key, .doneOp key] ∨
      (processNextItem acc (some key)).2 = [.forgetOp key, .doneOp key]) ∧
    (processNextItem acc (some key)).2.count (QueueOp.doneOp key) = 1 := by
  cases h : (processItem acc key).err with
  | some e => simp [processNextItem, h, List.count_cons]
  | none => simp [processNextItem, h, List.count_cons]

/-! ### C4: malformed keys are retried, not dropped -/

/-- C4 (counterexample): a malformed key is re-enqueued via `AddRateLimited` —
the worker's trace for the unparseable key `"a/b/c"` contains an
`AddRateLimited` call. -/
theorem c4_malformed_counterexample :
    QueueOp.addRateLimitedOp "a/b/c" ∈ (processNextItem accLow (some "a/b/c")).2 := by
  decide

/-- C4 (amended): for every dequeued item whose identity string is malformed,
`processItem` returns the parse error, and the worker consequently logs the
error and re-enqueues the item via `AddRateLimited` — the item is retried with
backoff, not dropped. -/
theorem c4_malformed_requeued (acc : Accessor) (key : String)
    (h : splitMetaNamespaceKey key = .error ()) :
    (processItem acc key).err = some .badKey ∧
    (processNextItem acc (some key)).2 = [.addRateLimitedOp key, .doneOp key] := by
  have hp : (processItem acc key).err = some .badKey := by
    simp only [processItem, h]
  exact ⟨hp, by simp only [processNextItem, hp]⟩

/-- C4 (witness): the malformed key `"a/b/c"` is rejected by the split and
re-enqueued via `AddRateLimited`. -/
theorem c4_malformed_requeued_witness :
    splitMetaNamespaceKey "a/b/c" = .error () ∧
    (processNextItem accLow (some "a/b/c")).2 =
      [.addRateLimitedOp "a/b/c", .doneOp "a/b/c"] :=
  ⟨rfl, (c4_malformed_requeued accLow "a/b/c" rfl).2⟩

/-! ### C6: backoff monotonicity -/

/-- C6: for any key and any rate-limiter state, the delay scheduled by
`AddRateLimited` on the next consecutive failure is at least the delay on the
previous one, every delay is capped by the configured ceiling, and after one
success (`Forget`) the next delay is back at the floor value. -/
theorem c6_backoff_monotone (base maxDelay : Nat) (st : RLState) (k : String)
    (hbase : base ≤ maxDelay) :
    (addRateLimitedDelay base maxDelay st k).1 ≤
      (addRateLimitedDelay base maxDelay
        (addRateLimitedDelay base maxDelay st k).2 k).1 ∧
    (addRateLimitedDelay base maxDelay st k).1 ≤ maxDelay ∧
    (addRateLimitedDelay base maxDelay (rlForget st k) k).1 = base := by
  refine ⟨?_, ?_, ?_⟩
  · simp only [addRateLimitedDelay, if_pos rfl]
    exact min_le_min
      (Nat.mul_le_mul_left _ (Nat.pow_le_pow_right (by norm_num) (Nat.le_succ _)))
      (le_refl _)
  · exact min_le_right _ _
  · simp [addRateLimitedDelay, rlForget, Nat.min_eq_left hbase]

/-- C6 (witness): with floor 5 and ceiling 1000, the first two consecutive
delays for a fresh key are non-decreasing and a `Forget` resets to 5. -/
theorem c6_backoff_monotone_witness :
    (5 : Nat) ≤ 1000 ∧
    ((addRateLimitedDelay 5 1000 ⟨fun _ => 0⟩ "test/app").1 ≤
      (addRateLimitedDelay 5 1000
        (addRateLimitedDelay 5 1000 ⟨fun _ => 0⟩ "test/app").2 "test/app").1 ∧
     (addRateLimitedDelay 5 1000 ⟨fun _ => 0⟩ "test/app").1 ≤ 1000 ∧
     (addRateLimitedDelay 5 1000 (rlForget ⟨fun _ => 0⟩ "test/app") "test/app").1 = 5) :=
  ⟨by decide, c6_backoff_monotone 5 1000 ⟨fun _ => 0⟩ "test/app" (by decide)⟩

/-! ### C9: namespace confinement -/

/-- C9: the controller-runtime event filter admits create, update and delete
events only for objects in namespace `"test"`, and every key the client-go
handlers enqueue for an informer-delivered object (the informer being confined
to namespace `"test"`) splits back to namespace `"test"`. -/
theorem c9_namespace_confinement :
    (∀ e : EventObj, createFunc e = true → e.ns = "test") ∧
    (∀ o n : EventObj, updateFunc o n = true → n.ns = "test") ∧
    (∀ e : EventObj, deleteFunc e = true → e.ns = "test") ∧
    (∀ obj : EventObj, informerDelivers obj → '/' ∉ obj.name.toList →
      splitMetaNamespaceKey (handlerKey obj) = .ok ("test", obj.name)) := by
  refine ⟨?_, ?_, ?_, ?_⟩
  · intro e h
    simpa [createFunc] using h
  · intro o n h
    simpa [updateFunc] using h
  · intro e h
    simpa [deleteFunc] using h
  · intro obj hns hname
    have hk : handlerKey obj = metaNamespaceKeyFunc "test" obj.name := by
      rw [handlerKey, hns]
    rw [hk]
    exact split_join "test" obj.name (by decide) hname

/-- C9 (witness): an object in namespace `"test"` passes the create filter and
its enqueued key splits back to namespace `"test"`. -/
theorem c9_namespace_confinement_witness :
    createFunc ⟨"test", "app"⟩ = true ∧
    (⟨"test", "app"⟩ : EventObj).ns = "test" ∧
    splitMetaNamespaceKey (handlerKey ⟨"test", "app"⟩) = .ok ("test", "app") :=
  ⟨by decide,
   c9_namespace_confinement.1 ⟨"test", "app"⟩ (by decide),
   c9_namespace_confinement.2.2.2 ⟨"test", "app"⟩ rfl (by decide)⟩

end ControllerPlayground
